import Mathlib

/-!
Verification of the humanloop-cookbook repository against its specification.

The repository is a set of cookbook scripts: a chat agent that logs a
conversation as a trace with nested tool/model spans
(`src/unnamed/part_000`, `src/unnamed/part_001`, `src/unnamed/part_002`,
`src/node-instrumented-chat-agent/index.ts`, the deno variants), string
evaluators (`src/node-evaluate-medqa/exact.match.ts`,
`src/ts-evaluating-agent/levenshtein.ts`) and a notebook template helper
(`src/tutorials/rag/evaluate-rag-flow.ipynb`, `populate_template`).

The definitions below are a shallow embedding of those source functions:
strings are Lean `String`/`List Char`, JavaScript numbers are modelled as
rationals (`Rat`; the branch and throw structure of the code does not
depend on floating-point rounding), thrown exceptions are `Except`/`Option`
results, and the sequence of logging calls issued by the agent is made
explicit as a list of events in program order.
-/

namespace Cookbook

/-! ### Answer extraction and exact match

`src/node-evaluate-medqa/exact.match.ts` and
`src/ts-evaluating-agent/levenshtein.ts` share `extractAnswer`:

    let answer = generation.split("---")[0].trim();
    if (answer.startsWith("```\n")) { answer = answer.substring(4).trim(); }
    return answer;

We embed it on `List Char`.  `takeUntil sep s` is the first segment of
`s.split(sep)` for a non-empty separator: the characters before the first
occurrence of `sep`.  `trimChars` mirrors JavaScript `String.prototype.trim`
on the whitespace characters that can occur here (space, tab, LF, CR).
-/

def isWsChar (c : Char) : Bool :=
  c == ' ' || c == '\t' || c == '\n' || c == '\r'

def trimChars (s : List Char) : List Char :=
  ((s.dropWhile isWsChar).reverse.dropWhile isWsChar).reverse

/-- Characters of `s` before the first occurrence of `sep`:
`s.split(sep)[0]` in JavaScript, for non-empty `sep`. -/
def takeUntil (sep : List Char) : List Char → List Char
  | [] => []
  | c :: cs => if sep.isPrefixOf (c :: cs) then [] else c :: takeUntil sep cs

/-- The `extractAnswer` helper from `exact.match.ts` / `levenshtein.ts`: first
"---"-segment, trimmed; if the result starts with a "```\n" code fence the
fence (4 characters) is dropped and the remainder trimmed again. -/
def extractAnswer (generation : List Char) : List Char :=
  let answer := trimChars (takeUntil "---".data generation)
  if "```\n".data.isPrefixOf answer then trimChars (answer.drop 4) else answer

def extractAnswerS (generation : String) : String :=
  ⟨extractAnswer generation.data⟩

/-- The `exactMatch` evaluator from `exact.match.ts`: `target === extractAnswer(log.output)`. -/
def exactMatch (generated target : String) : Bool :=
  target == extractAnswerS generated

/-- The normalization exactly as claim C6 words it: split the generated text
on "---" and take the first segment, trim surrounding whitespace, and strip a
leading "```\n" code-fence marker if present — with no further trimming after
the strip.  Stated for comparison against `extractAnswer`, which trims again
after stripping the fence. -/
def claimNormalization (generation : List Char) : List Char :=
  let answer := trimChars (takeUntil "---".data generation)
  if "```\n".data.isPrefixOf answer then answer.drop 4 else answer

/-! ### Calculator tool

The calculator callable, identical (up to argument packaging) in
`src/unnamed/part_000`, `src/unnamed/part_001`, `src/unnamed/part_002`,
`src/node-instrumented-chat-agent/index.ts` and the deno variants:

    switch (operation) {
      case "add": return num1 + num2;
      case "subtract": return num1 - num2;
      case "multiply": return num1 * num2;
      case "divide":
        if (num2 === 0) { throw new Error("Cannot divide by zero"); }
        return num1 / num2;
      default: throw new Error("Invalid operation");
    }

A thrown `Error` is an `Except.error` carrying the message. -/
def calculator (operation : String) (num1 num2 : Rat) : Except String Rat :=
  if operation = "add" then .ok (num1 + num2)
  else if operation = "subtract" then .ok (num1 - num2)
  else if operation = "multiply" then .ok (num1 * num2)
  else if operation = "divide" then
    if num2 = 0 then .error "Cannot divide by zero"
    else .ok (num1 / num2)
  else .error "Invalid operation"

/-! ### Levenshtein distance

`src/ts-evaluating-agent/levenshtein.ts` computes
`distance(target, extractAnswer(log.output))` with `distance` imported from
the external `fastest-levenshtein` package, whose implementation is not part
of this repository. -/

/-- Modelled from the spec: the `fastest-levenshtein` implementation behind
the levenshtein evaluator is an external dependency; the spec describes it as
"standard edit distance (insertions, deletions, substitutions each cost 1)".
`levF` is that recurrence with an explicit fuel argument (structural
recursion on the fuel); `lev` below supplies sufficient fuel. -/
def levF : Nat → List Char → List Char → Nat
  | _, [], ys => ys.length
  | _, x :: xs, [] => (x :: xs).length
  | 0, _ :: _, _ :: _ => 0
  | f + 1, x :: xs, y :: ys =>
    if x = y then levF f xs ys
    else 1 + min (min (levF f xs (y :: ys)) (levF f (x :: xs) ys)) (levF f xs ys)

/-- Unit-cost edit distance on character lists (see `levF`). -/
def lev (xs ys : List Char) : Nat :=
  levF (xs.length + ys.length) xs ys

def levString (a b : String) : Nat :=
  lev a.data b.data

/-- The `levenshtein` evaluator from `src/ts-evaluating-agent/levenshtein.ts`:
`distance(target, extractAnswer(log.output))`. -/
def levenshteinEvaluator (logOutput target : String) : Nat :=
  levString target (extractAnswerS logOutput)

/-! ### Template substitution

`populate_template` from `src/tutorials/rag/evaluate-rag-flow.ipynb`:

    def populate_template(template: list, inputs: dict[str, str]) -> list:
        messages = []
        for i, template_message in enumerate(template):
            content = template_message["content"]
            for key, value in inputs.items():
                content = content.replace("{{" + key + "}}", value)
            message = {**template_message, "content": content}
            messages.append(message)
        return messages

Python's `str.replace` replaces every non-overlapping occurrence of the
pattern, scanning left to right.  `replaceAllF` embeds it with a fuel equal
to the remaining text length (the patterns used here, `"{{" + key + "}}"`,
are never empty, and the fuel invariantly equals the text length, so the
fuel never runs out).  A Python `dict` iterates in insertion order, so the
inputs mapping is an association list iterated in order. -/

def lcurly : Char := Char.ofNat 123

def rcurly : Char := Char.ofNat 125

/-- The placeholder pattern `"{{" + key + "}}"`. -/
def placeholder (key : List Char) : List Char :=
  lcurly :: lcurly :: (key ++ [rcurly, rcurly])

/-- Python `s.replace(pat, repl)`, fuelled: at each position, if `pat`
matches, emit `repl` and continue after the match, else keep the character.
The recursion is structural on the fuel; as long as the fuel is at least the
length of the remaining text (as in `replaceAll`, and preserved by both
branches for non-empty `pat`), the `0`-fuel branch is only reached on `[]`. -/
def replaceAllF (pat repl : List Char) : Nat → List Char → List Char
  | _, [] => []
  | 0, s => s
  | f + 1, c :: cs =>
    if pat.isPrefixOf (c :: cs) then
      repl ++ replaceAllF pat repl f (cs.drop (pat.length - 1))
    else
      c :: replaceAllF pat repl f cs

def replaceAll (pat repl s : List Char) : List Char :=
  replaceAllF pat repl s.length s

/-- The inner loop of `populate_template`: for each `(key, value)` of the
mapping in iteration order, `content = content.replace("{{"+key+"}}", value)`. -/
def substInputs (inputs : List (List Char × List Char)) (content : List Char) :
    List Char :=
  inputs.foldl (fun content kv => replaceAll (placeholder kv.1) kv.2 content) content

structure TemplateMessage where
  role : List Char
  content : List Char
deriving DecidableEq

def populate_template (template : List TemplateMessage)
    (inputs : List (List Char × List Char)) : List TemplateMessage :=
  template.map fun m => { m with content := substInputs inputs m.content }

/-! ### The chat agent (`src/unnamed/part_002`)

The manual-logging chat agent: `conversation` opens a Flow trace
(`humanloop.flows.log`), loops on user input until the line `"exit"`, calls
`callModel` for each turn, and finally closes the trace with
`humanloop.flows.updateLog(traceId, { traceStatus: "complete", ... })`.
`callModel` sends the messages to the model; if the response carries tool
calls it runs the calculator on each and issues a `tools.log` per call, then
issues one `prompts.log`; a calculator throw propagates out uncaught.

The embedding makes the sequence of logging calls explicit as a list of
`Event`s in program order.  The model provider is an oracle `Nat →
ModelMessage` giving the response message of each turn; the rendering of a
JavaScript number into the reply string is an opaque parameter
`ratStr : Rat → String`.  The logging sink (the remote Humanloop service) is
not part of the repository; per the spec's Sink contract a delivery returns a
result value (`Ack` or a `SinkError`) and never raises, so the sink is a
function from the log request to a `SinkResult` and each issued event is
paired with its outcome, which the agent code never inspects. -/

structure Message where
  role : String
  content : String
deriving DecidableEq

/-- One entry of `output.choices[0].message.tool_calls`. -/
structure ToolCall where
  name : String
  operation : String
  num1 : Rat
  num2 : Rat
deriving DecidableEq

/-- The model response message `output.choices[0].message`: `content` is a string or null, `tool_calls`
is absent/null or an array (a present empty array is truthy in JavaScript,
so presence is an `Option`, not emptiness). -/
structure ModelMessage where
  content : Option String
  tool_calls : Option (List ToolCall)
deriving DecidableEq

/-- Modelled from the spec: outcome of one sink delivery, §4.2 — an `Ack` or
a `SinkError` (`Unreachable`, `Rejected`, `Timeout`), returned as a value,
never raised. -/
inductive SinkResult where
  | ack
  | unreachable
  | rejected
  | timeout
deriving DecidableEq

/-- A logging call issued by the agent, in program order: `flows.log` (trace
creation), `tools.log` / `prompts.log` (spans carrying `traceParentId`), and
`flows.updateLog` with `traceStatus: "complete"`. -/
inductive Event where
  | flowStart (traceId : Nat)
  | toolLog (traceParentId : Nat) (name operation : String) (num1 num2 result : Rat)
  | promptLog (traceParentId : Nat) (messages : List Message)
  | flowComplete (traceId : Nat)
deriving DecidableEq

/-- The tool-call loop of `callModel` in `part_002`: for each tool call, run
the calculator (a throw aborts everything: events so far are kept, the reply
is `none`), issue `tools.log`, and overwrite
`llmResponse = "[" + name + "] " + result`. -/
def runToolCalls (ratStr : Rat → String) (sink : Event → SinkResult)
    (traceId : Nat) : List ToolCall → String →
    List (Event × SinkResult) × Option String
  | [], acc => ([], some acc)
  | c :: rest, acc =>
    match calculator c.operation c.num1 c.num2 with
    | .error _ =>
      -- the throw happens before `tools.log`; `acc` is discarded
      ([], none)
    | .ok r =>
      let ev := Event.toolLog traceId c.name c.operation c.num1 c.num2 r
      let (evs, res) :=
        runToolCalls ratStr sink traceId rest ("[" ++ c.name ++ "] " ++ ratStr r)
      ((ev, sink ev) :: evs, res)

/-- The `callModel` function from `part_002` (lines 90–136): given the model's response
message, run the tool-call branch (or take `content || ""`), then issue one
`prompts.log` whose messages are `[...messages, { assistant, llmResponse }]`,
and return `llmResponse`.  A reply of `none` is an uncaught throw. -/
def callModel (ratStr : Rat → String) (sink : Event → SinkResult)
    (traceId : Nat) (messages : List Message) (msg : ModelMessage) :
    List (Event × SinkResult) × Option String :=
  match msg.tool_calls with
  | some cs =>
    let (evs, res) := runToolCalls ratStr sink traceId cs ""
    match res with
    | none => (evs, none)
    | some llmResponse =>
      let pev := Event.promptLog traceId
        (messages ++ [{ role := "assistant", content := llmResponse }])
      (evs ++ [(pev, sink pev)], some llmResponse)
  | none =>
    let llmResponse := msg.content.getD ""
    let pev := Event.promptLog traceId
      (messages ++ [{ role := "assistant", content := llmResponse }])
    ([(pev, sink pev)], some llmResponse)

/-- Projection of `callModel` with the sink outcomes dropped: the events issued, in program
order, and the reply. -/
def callModelEvents (ratStr : Rat → String) (traceId : Nat)
    (messages : List Message) (msg : ModelMessage) : List Event × Option String :=
  let (evs, res) := callModel ratStr (fun _ => .ack) traceId messages msg
  (evs.map Prod.fst, res)

/-- The `callModel` function from the decorated variant `src/unnamed/part_000` (lines
85–96, same shape in `src/node-instrumented-chat-agent/index.ts` and the deno
variants): the `for` loop over `tool_calls` returns
`"[TOOL CALL] " + result` during its first iteration, so only the first tool
call is executed; with no (or an empty) `tool_calls` array it falls through
to `content || ""`. -/
def callModelDecorated (ratStr : Rat → String) (msg : ModelMessage) :
    Option String :=
  match msg.tool_calls with
  | some (c :: _) =>
    match calculator c.operation c.num1 c.num2 with
    | .ok r => some ("[TOOL CALL] " ++ ratStr r)
    | .error _ => none
  | some [] => some (msg.content.getD "")
  | none => some (msg.content.getD "")

/-- How an execution of `conversation` ends: the `"exit"` sentinel was read
(`completed`), an uncaught tool error aborted it (`crashed`), or the modelled
input list ran out before `"exit"` (`outOfInput`: the real program would
block on `rl.question` forever). -/
inductive Outcome where
  | completed
  | crashed
  | outOfInput
deriving DecidableEq

def systemMessage : Message :=
  { role := "system"
    content := "You are a groovy 80s surfer dude helping with math and science." }

/-- The `while (true)` input loop of `conversation` in `part_002` (lines
158–173): read a line; `"exit"` breaks the loop; otherwise push the user
message, call the model, print and push the assistant reply, continue.
Returns the events issued by the loop, the final message list, and how the
loop ended. -/
def convLoop (ratStr : Rat → String) (oracle : Nat → ModelMessage)
    (traceId : Nat) : Nat → List Message → List String →
    List Event × List Message × Outcome
  | _, messages, [] => ([], messages, .outOfInput)
  | turn, messages, userInput :: rest =>
    if userInput = "exit" then ([], messages, .completed)
    else
      let m1 := messages ++ [{ role := "user", content := userInput }]
      let (evs, res) := callModelEvents ratStr traceId m1 (oracle turn)
      match res with
      | none => (evs, m1, .crashed)
      | some response =>
        let m2 := m1 ++ [{ role := "assistant", content := response }]
        let (evs', msgs', out) := convLoop ratStr oracle traceId (turn + 1) m2 rest
        (evs ++ evs', msgs', out)

/-- The `conversation` entry point from `part_002` (lines 138–179): create the Flow trace
(`flows.log`), run the input loop, and — only when the loop ended at the
`"exit"` sentinel — close the trace with `flows.updateLog(traceId,
{ traceStatus: "complete", ... })`.  A crash (uncaught tool error) or input
exhaustion never reaches the closing update. -/
def conversation (ratStr : Rat → String) (oracle : Nat → ModelMessage)
    (inputs : List String) : List Event × List Message × Outcome :=
  let traceId := 0
  let (evs, msgs, out) := convLoop ratStr oracle traceId 0 [systemMessage] inputs
  match out with
  | .completed =>
    (Event.flowStart traceId :: evs ++ [Event.flowComplete traceId], msgs, .completed)
  | o => (Event.flowStart traceId :: evs, msgs, o)

/-- A span log (tool-call or model-call) carrying `tid` as trace parent. -/
def isSpanLog (tid : Nat) : Event → Bool
  | .toolLog t _ _ _ _ _ => t == tid
  | .promptLog t _ => t == tid
  | _ => false

/-- The status-completing update of trace `tid`. -/
def isFlowCompleteEv (tid : Nat) : Event → Bool
  | .flowComplete t => t == tid
  | _ => false

/-- A `tools.log` span carrying `tid` as trace parent. -/
def isToolLog (tid : Nat) : Event → Bool
  | .toolLog t _ _ _ _ _ => t == tid
  | _ => false

/-- Modelled from the spec: the span status recorded by the SDK's tool
wrapper (the Correlator), §3/§7 — a tool callable that returns yields a
`complete` span whose output is the rendered result; a tool callable that
throws is captured as a span with `status = errored` and the error
description as output, and the error never propagates uncaught past the
Correlator (this capture is a total function). -/
inductive SpanStatus where
  | complete
  | errored
deriving DecidableEq

structure ToolSpan where
  status : SpanStatus
  output : String
deriving DecidableEq

/-- Modelled from the spec: running a calculator invocation under the
Correlator's tool wrapper (the SDK decorator, not part of this repository);
see `SpanStatus`. -/
def runToolSpan (ratStr : Rat → String) (operation : String)
    (num1 num2 : Rat) : ToolSpan :=
  match calculator operation num1 num2 with
  | .ok r => { status := .complete, output := ratStr r }
  | .error e => { status := .errored, output := e }

/-! ### Concrete instances used in witnesses and counterexamples -/

/-- A fixed rendering of numbers into reply strings. -/
def ratStr0 : Rat → String := fun _ => "r"

/-- A model oracle that always answers with plain content "hi". -/
def oracleHi : Nat → ModelMessage := fun _ => { content := some "hi", tool_calls := none }

/-- A model oracle that always requests the tool call `divide 1 0`. -/
def oracleDiv0 : Nat → ModelMessage := fun _ =>
  { content := none, tool_calls := some [⟨"calculator", "divide", 1, 0⟩] }

/-- A sink that always acknowledges. -/
def sinkOk : Event → SinkResult := fun _ => .ack

/-- A sink that always fails with `Unreachable`. -/
def sinkFail : Event → SinkResult := fun _ => .unreachable

/-- A model response requesting the single tool call `add 2 3`. -/
def msgAdd : ModelMessage := ⟨none, some [⟨"calculator", "add", 2, 3⟩]⟩

/-- A template message whose content holds a `{{name}}` placeholder, used to
exhibit `populate_template`'s behaviour on a key absent from the mapping. -/
def c4msg : TemplateMessage :=
  ⟨"user".data, "Hello \x7b\x7bname\x7d\x7d".data⟩

end Cookbook

namespace Cookbook

/-! ## Helper lemmas -/

theorem levF_nil_right (f : Nat) (ys : List Char) : levF f ys [] = ys.length := by
  cases f <;> cases ys <;> rfl

theorem levF_symm (f : Nat) : ∀ xs ys : List Char,
    xs.length + ys.length ≤ f → levF f xs ys = levF f ys xs := by
  induction f with
  | zero =>
    intro xs ys h
    have hx : xs = [] := List.length_eq_zero.mp (by omega)
    have hy : ys = [] := List.length_eq_zero.mp (by omega)
    simp [hx, hy]
  | succ f ih =>
    intro xs ys h
    match xs, ys with
    | [], ys => simp [levF, levF_nil_right]
    | x :: xs, [] => simp [levF, levF_nil_right]
    | x :: xs, y :: ys =>
      simp only [List.length_cons] at h
      by_cases hxy : x = y
      · subst hxy
        simp only [levF, if_pos rfl]
        exact ih xs ys (by omega)
      · simp only [levF, if_neg hxy, if_neg (Ne.symm hxy)]
        rw [ih xs (y :: ys) (by simp; omega), ih (x :: xs) ys (by simp; omega),
          ih xs ys (by omega)]
        omega

theorem levF_eq_zero_iff (f : Nat) : ∀ xs ys : List Char,
    xs.length + ys.length ≤ f → (levF f xs ys = 0 ↔ xs = ys) := by
  induction f with
  | zero =>
    intro xs ys h
    have hx : xs = [] := List.length_eq_zero.mp (by omega)
    have hy : ys = [] := List.length_eq_zero.mp (by omega)
    simp [hx, hy, levF]
  | succ f ih =>
    intro xs ys h
    match xs, ys with
    | [], ys => simpa [levF, eq_comm] using List.length_eq_zero
    | x :: xs, [] => simp [levF]
    | x :: xs, y :: ys =>
      simp only [List.length_cons] at h
      by_cases hxy : x = y
      · subst hxy
        have hstep : levF (f + 1) (x :: xs) (x :: ys) = levF f xs ys := by
          simp [levF]
        rw [hstep, ih xs ys (by omega)]
        simp
      · simp only [levF, if_neg hxy]
        constructor
        · intro hz; omega
        · intro hc
          exact absurd (List.cons_eq_cons.mp hc).1 hxy

theorem lev_symm (xs ys : List Char) : lev xs ys = lev ys xs := by
  unfold lev
  rw [Nat.add_comm ys.length xs.length]
  exact levF_symm _ xs ys (Nat.le_refl _)

theorem lev_eq_zero_iff (xs ys : List Char) : lev xs ys = 0 ↔ xs = ys :=
  levF_eq_zero_iff _ xs ys (Nat.le_refl _)

theorem replaceAllF_no_occurrence (pat repl : List Char) (f : Nat) :
    ∀ s : List Char, ¬ pat <:+: s → replaceAllF pat repl f s = s := by
  induction f with
  | zero => intro s _; cases s <;> rfl
  | succ f ih =>
    intro s hs
    cases s with
    | nil => rfl
    | cons c cs =>
      have hp : pat.isPrefixOf (c :: cs) = false := by
        rw [Bool.eq_false_iff]
        intro hp
        exact hs <| List.IsPrefix.isInfix <| List.isPrefixOf_iff_prefix.mp hp
      simp only [replaceAllF, hp, Bool.false_eq_true, if_false]
      rw [ih cs fun hi => hs <| hi.trans <| List.IsSuffix.isInfix <| List.suffix_cons c cs]

theorem substInputs_no_occurrence :
    ∀ (inputs : List (List Char × List Char)) (content : List Char),
      (∀ kv ∈ inputs, ¬ placeholder kv.1 <:+: content) →
      substInputs inputs content = content := by
  intro inputs
  induction inputs with
  | nil => intro content _; rfl
  | cons kv rest ih =>
    intro content h
    have h1 : replaceAll (placeholder kv.1) kv.2 content = content :=
      replaceAllF_no_occurrence _ _ _ _ (h kv (by simp))
    show substInputs (kv :: rest) content = content
    simp only [substInputs, List.foldl_cons]
    rw [show replaceAll (placeholder kv.1) kv.2 content = content from h1]
    exact ih content fun kv' hkv' => h kv' (List.mem_cons_of_mem _ hkv')

theorem runToolCalls_sink_invariant (ratStr : Rat → String)
    (sink sink' : Event → SinkResult) (traceId : Nat) :
    ∀ (cs : List ToolCall) (acc : String),
      (runToolCalls ratStr sink traceId cs acc).2
        = (runToolCalls ratStr sink' traceId cs acc).2 ∧
      (runToolCalls ratStr sink traceId cs acc).1.map Prod.fst
        = (runToolCalls ratStr sink' traceId cs acc).1.map Prod.fst := by
  intro cs
  induction cs with
  | nil => intro acc; exact ⟨rfl, rfl⟩
  | cons c rest ih =>
    intro acc
    cases hc : calculator c.operation c.num1 c.num2 with
    | error e => simp [runToolCalls, hc]
    | ok r =>
      rcases hrec : runToolCalls ratStr sink traceId rest
        ("[" ++ c.name ++ "] " ++ ratStr r) with ⟨evs, res⟩
      rcases hrec' : runToolCalls ratStr sink' traceId rest
        ("[" ++ c.name ++ "] " ++ ratStr r) with ⟨evs', res'⟩
      obtain ⟨h1, h2⟩ := ih ("[" ++ c.name ++ "] " ++ ratStr r)
      rw [hrec, hrec'] at h1 h2
      simp only [runToolCalls, hc, hrec, hrec']
      exact ⟨h1, by simp [h2]⟩

theorem runToolCalls_complete (ratStr : Rat → String) (sink : Event → SinkResult)
    (traceId : Nat) :
    ∀ (cs : List ToolCall),
      (∀ c ∈ cs, ∃ r, calculator c.operation c.num1 c.num2 = .ok r) →
      ∀ acc, ∃ out, (runToolCalls ratStr sink traceId cs acc).2 = some out := by
  intro cs
  induction cs with
  | nil => intro _ acc; exact ⟨acc, rfl⟩
  | cons c rest ih =>
    intro h acc
    obtain ⟨r, hr⟩ := h c (by simp)
    rcases hrec : runToolCalls ratStr sink traceId rest
      ("[" ++ c.name ++ "] " ++ ratStr r) with ⟨evs, res⟩
    obtain ⟨out, hout⟩ := ih (fun c' hc' => h c' (by simp [hc']))
      ("[" ++ c.name ++ "] " ++ ratStr r)
    rw [hrec] at hout
    refine ⟨out, ?_⟩
    simp only [runToolCalls, hr, hrec]
    exact hout

theorem runToolCalls_last_reply (ratStr : Rat → String) (sink : Event → SinkResult)
    (traceId : Nat) (c : ToolCall) (r : Rat)
    (hc : calculator c.operation c.num1 c.num2 = .ok r) :
    ∀ (cs : List ToolCall),
      (∀ c' ∈ cs, ∃ r', calculator c'.operation c'.num1 c'.num2 = .ok r') →
      ∀ acc,
        (runToolCalls ratStr sink traceId (cs ++ [c]) acc).2
          = some ("[" ++ c.name ++ "] " ++ ratStr r) ∧
        (runToolCalls ratStr sink traceId (cs ++ [c]) acc).1.length
          = cs.length + 1 := by
  intro cs
  induction cs with
  | nil => intro _ acc; simp [runToolCalls, hc]
  | cons c' rest ih =>
    intro h acc
    obtain ⟨r', hr'⟩ := h c' (by simp)
    rcases hrec : runToolCalls ratStr sink traceId (rest ++ [c])
      ("[" ++ c'.name ++ "] " ++ ratStr r') with ⟨evs, res⟩
    obtain ⟨h1, h2⟩ := ih (fun d hd => h d (by simp [hd]))
      ("[" ++ c'.name ++ "] " ++ ratStr r')
    rw [hrec] at h1 h2
    simp only [List.cons_append, runToolCalls, hr']
    simp [hrec, h1, h2]

theorem runToolCalls_events_toolLog (ratStr : Rat → String)
    (sink : Event → SinkResult) (traceId : Nat) :
    ∀ (cs : List ToolCall) (acc : String),
      ∀ p ∈ (runToolCalls ratStr sink traceId cs acc).1,
        isToolLog traceId p.1 = true ∧ isSpanLog traceId p.1 = true := by
  intro cs
  induction cs with
  | nil => intro acc p hp; simp [runToolCalls] at hp
  | cons c rest ih =>
    intro acc p hp
    cases hc : calculator c.operation c.num1 c.num2 with
    | error e => simp [runToolCalls, hc] at hp
    | ok r =>
      rcases hrec : runToolCalls ratStr sink traceId rest
        ("[" ++ c.name ++ "] " ++ ratStr r) with ⟨evs, res⟩
      simp only [runToolCalls, hc, hrec] at hp
      rcases List.mem_cons.mp hp with h | h
      · rw [h]; exact ⟨by simp [isToolLog], by simp [isSpanLog]⟩
      · exact ih ("[" ++ c.name ++ "] " ++ ratStr r) p (by rw [hrec]; exact h)

theorem callModel_sink_invariant (ratStr : Rat → String)
    (sink sink' : Event → SinkResult) (traceId : Nat) (messages : List Message)
    (msg : ModelMessage) :
    (callModel ratStr sink traceId messages msg).2
      = (callModel ratStr sink' traceId messages msg).2 ∧
    (callModel ratStr sink traceId messages msg).1.map Prod.fst
      = (callModel ratStr sink' traceId messages msg).1.map Prod.fst := by
  cases hmt : msg.tool_calls with
  | none => simp [callModel, hmt]
  | some cs =>
    rcases h1 : runToolCalls ratStr sink traceId cs "" with ⟨evs, res⟩
    rcases h2 : runToolCalls ratStr sink' traceId cs "" with ⟨evs', res'⟩
    obtain ⟨hres, hevs⟩ := runToolCalls_sink_invariant ratStr sink sink' traceId cs ""
    rw [h1, h2] at hres hevs
    subst hres
    cases res with
    | none => simp [callModel, hmt, h1, h2, hevs]
    | some llm => simp [callModel, hmt, h1, h2, hevs]

theorem callModel_complete (ratStr : Rat → String) (sink : Event → SinkResult)
    (traceId : Nat) (messages : List Message) (msg : ModelMessage)
    (h : ∀ cs, msg.tool_calls = some cs →
      ∀ c ∈ cs, ∃ r, calculator c.operation c.num1 c.num2 = .ok r) :
    ∃ reply, (callModel ratStr sink traceId messages msg).2 = some reply := by
  cases hmt : msg.tool_calls with
  | none => exact ⟨msg.content.getD "", by simp [callModel, hmt]⟩
  | some cs =>
    obtain ⟨out, hout⟩ := runToolCalls_complete ratStr sink traceId cs (h cs hmt) ""
    rcases h1 : runToolCalls ratStr sink traceId cs "" with ⟨evs, res⟩
    rw [h1] at hout
    refine ⟨out, ?_⟩
    simp [callModel, hmt, h1, hout]

theorem callModel_events_spanLog (ratStr : Rat → String)
    (sink : Event → SinkResult) (traceId : Nat) (messages : List Message)
    (msg : ModelMessage) :
    ∀ p ∈ (callModel ratStr sink traceId messages msg).1,
      isSpanLog traceId p.1 = true := by
  intro p hp
  cases hmt : msg.tool_calls with
  | none =>
    simp [callModel, hmt] at hp
    rw [hp]
    simp [isSpanLog]
  | some cs =>
    rcases h1 : runToolCalls ratStr sink traceId cs "" with ⟨evs, res⟩
    cases res with
    | none =>
      simp only [callModel, hmt, h1] at hp
      exact (runToolCalls_events_toolLog ratStr sink traceId cs "" p
        (by rw [h1]; exact hp)).2
    | some llm =>
      simp only [callModel, hmt, h1] at hp
      rcases List.mem_append.mp hp with h | h
      · exact (runToolCalls_events_toolLog ratStr sink traceId cs "" p
          (by rw [h1]; exact h)).2
      · simp at h
        rw [h]
        simp [isSpanLog]

theorem callModelEvents_spanLog (ratStr : Rat → String) (traceId : Nat)
    (messages : List Message) (msg : ModelMessage) :
    ∀ e ∈ (callModelEvents ratStr traceId messages msg).1,
      isSpanLog traceId e = true := by
  intro e he
  rcases hcm : callModel ratStr (fun _ => SinkResult.ack) traceId messages msg
    with ⟨evsp, res⟩
  have he' : e ∈ evsp.map Prod.fst := by
    unfold callModelEvents at he
    simp only [hcm] at he
    exact he
  obtain ⟨p, hp, hpe⟩ := List.mem_map.mp he'
  rw [← hpe]
  exact callModel_events_spanLog ratStr _ traceId messages msg p
    (by rw [hcm]; exact hp)

theorem convLoop_events_spanLog (ratStr : Rat → String)
    (oracle : Nat → ModelMessage) (traceId : Nat) :
    ∀ (inputs : List String) (turn : Nat) (messages : List Message),
      ∀ e ∈ (convLoop ratStr oracle traceId turn messages inputs).1,
        isSpanLog traceId e = true := by
  intro inputs
  induction inputs with
  | nil => intro turn messages e he; simp [convLoop] at he
  | cons s rest ih =>
    intro turn messages e he
    by_cases hs : s = "exit"
    · simp [convLoop, hs] at he
    · rcases hcm : callModelEvents ratStr traceId
        (messages ++ [{ role := "user", content := s }]) (oracle turn)
        with ⟨evs, res⟩
      cases res with
      | none =>
        simp only [convLoop, if_neg hs, hcm] at he
        exact callModelEvents_spanLog ratStr traceId _ (oracle turn) e
          (by rw [hcm]; exact he)
      | some response =>
        rcases hrec : convLoop ratStr oracle traceId (turn + 1)
          (messages ++ [{ role := "user", content := s }]
            ++ [{ role := "assistant", content := response }]) rest
          with ⟨evs', msgs', out⟩
        simp only [convLoop, if_neg hs, hcm, hrec] at he
        rcases List.mem_append.mp he with h | h
        · exact callModelEvents_spanLog ratStr traceId _ (oracle turn) e
            (by rw [hcm]; exact h)
        · exact ih (turn + 1) _ e (by rw [hrec]; exact h)

/-! ## Claims -/

/-- C1, counterexample: the claim quantifies over every execution of the
conversation flow, but an execution whose tool call fails crashes before the
closing `flows.updateLog` is reached: on the concrete input below the trace
undergoes zero terminal transitions, not exactly one — the only event ever
issued is the trace-opening `flows.log`. -/
theorem trace_never_completed_on_crash :
    (conversation ratStr0 oracleDiv0 ["calc"]).1.countP (isFlowCompleteEv 0) = 0 ∧
    (conversation ratStr0 oracleDiv0 ["calc"]).2.2 = .crashed ∧
    (conversation ratStr0 oracleDiv0 ["calc"]).1 = [.flowStart 0] :=
  ⟨by decide, by decide, by decide⟩

/-- C1 (amended): for every execution of the conversation flow, the trace
undergoes at most one terminal transition and no span log carrying the
trace's id is ever issued after it — in program order the event list is the
trace-opening `flows.log` followed by a body consisting solely of span logs
referencing the trace id, and then: an execution that ends at the exit
sentinel closes with a single status-completing `flows.updateLog` as the
final call (exactly one terminal transition), while an execution aborted by
an uncaught tool error or by input exhaustion never issues the completing
update (zero terminal transitions). -/
theorem trace_terminal_transition_at_most_once (ratStr : Rat → String)
    (oracle : Nat → ModelMessage) (inputs : List String) :
    ∃ body, (∀ e ∈ body, isSpanLog 0 e = true) ∧
      (((conversation ratStr oracle inputs).2.2 = .completed ∧
        (conversation ratStr oracle inputs).1
          = .flowStart 0 :: body ++ [.flowComplete 0] ∧
        (conversation ratStr oracle inputs).1.countP (isFlowCompleteEv 0) = 1) ∨
       ((conversation ratStr oracle inputs).2.2 ≠ .completed ∧
        (conversation ratStr oracle inputs).1 = .flowStart 0 :: body ∧
        (conversation ratStr oracle inputs).1.countP (isFlowCompleteEv 0) = 0)) := by
  rcases hcl : convLoop ratStr oracle 0 0 [systemMessage] inputs with ⟨evs, msgs, out⟩
  have hspan : ∀ e ∈ evs, isSpanLog 0 e = true := fun e he =>
    convLoop_events_spanLog ratStr oracle 0 inputs 0 [systemMessage] e
      (by rw [hcl]; exact he)
  have h0 : evs.countP (isFlowCompleteEv 0) = 0 :=
    List.countP_eq_zero.mpr fun e he => by
      have hsp := hspan e he
      cases e <;> simp [isSpanLog, isFlowCompleteEv] at hsp ⊢
  refine ⟨evs, hspan, ?_⟩
  cases out with
  | completed =>
    left
    refine ⟨by simp [conversation, hcl], by simp [conversation, hcl], ?_⟩
    simp [conversation, hcl, List.countP_cons, List.countP_append, h0,
      isFlowCompleteEv]
  | crashed =>
    right
    refine ⟨by simp [conversation, hcl], by simp [conversation, hcl], ?_⟩
    simp [conversation, hcl, List.countP_cons, h0, isFlowCompleteEv]
  | outOfInput =>
    right
    refine ⟨by simp [conversation, hcl], by simp [conversation, hcl], ?_⟩
    simp [conversation, hcl, List.countP_cons, h0, isFlowCompleteEv]

/-- C1, instantiation of `trace_terminal_transition_at_most_once` on a
concrete completed conversation and on a concrete crashed one. -/
theorem trace_terminal_transition_at_most_once_witness :
    (∃ body, (∀ e ∈ body, isSpanLog 0 e = true) ∧
      (((conversation ratStr0 oracleHi ["yo", "exit"]).2.2 = .completed ∧
        (conversation ratStr0 oracleHi ["yo", "exit"]).1
          = .flowStart 0 :: body ++ [.flowComplete 0] ∧
        (conversation ratStr0 oracleHi ["yo", "exit"]).1.countP
          (isFlowCompleteEv 0) = 1) ∨
       ((conversation ratStr0 oracleHi ["yo", "exit"]).2.2 ≠ .completed ∧
        (conversation ratStr0 oracleHi ["yo", "exit"]).1 = .flowStart 0 :: body ∧
        (conversation ratStr0 oracleHi ["yo", "exit"]).1.countP
          (isFlowCompleteEv 0) = 0))) ∧
    (∃ body, (∀ e ∈ body, isSpanLog 0 e = true) ∧
      (((conversation ratStr0 oracleDiv0 ["boom"]).2.2 = .completed ∧
        (conversation ratStr0 oracleDiv0 ["boom"]).1
          = .flowStart 0 :: body ++ [.flowComplete 0] ∧
        (conversation ratStr0 oracleDiv0 ["boom"]).1.countP
          (isFlowCompleteEv 0) = 1) ∨
       ((conversation ratStr0 oracleDiv0 ["boom"]).2.2 ≠ .completed ∧
        (conversation ratStr0 oracleDiv0 ["boom"]).1 = .flowStart 0 :: body ∧
        (conversation ratStr0 oracleDiv0 ["boom"]).1.countP
          (isFlowCompleteEv 0) = 0))) :=
  ⟨trace_terminal_transition_at_most_once ratStr0 oracleHi ["yo", "exit"],
   trace_terminal_transition_at_most_once ratStr0 oracleDiv0 ["boom"]⟩

/-- C2: the outcome of the logging sink never raises into, aborts, or changes
the result of `callModel`: for any two sinks (in particular a sink that
always fails with `Unreachable`), `callModel` issues the same log requests
and returns the same reply, and whenever the requested tool calls all
succeed the business computation completes with some reply. -/
theorem sink_failure_never_affects_reply (ratStr : Rat → String)
    (sink sink' : Event → SinkResult) (traceId : Nat) (messages : List Message)
    (msg : ModelMessage) :
    (callModel ratStr sink traceId messages msg).2
      = (callModel ratStr sink' traceId messages msg).2 ∧
    (callModel ratStr sink traceId messages msg).1.map Prod.fst
      = (callModel ratStr sink' traceId messages msg).1.map Prod.fst ∧
    ((∀ cs, msg.tool_calls = some cs →
        ∀ c ∈ cs, ∃ r, calculator c.operation c.num1 c.num2 = .ok r) →
      ∃ reply, (callModel ratStr sink traceId messages msg).2 = some reply) :=
  ⟨(callModel_sink_invariant ratStr sink sink' traceId messages msg).1,
   (callModel_sink_invariant ratStr sink sink' traceId messages msg).2,
   fun h => callModel_complete ratStr sink traceId messages msg h⟩

/-- C2, witness: an always-`Unreachable` sink versus an always-`ack` sink on
a turn whose tool invocation returns `add 2 3 = 5`. -/
theorem sink_failure_never_affects_reply_witness :
    (callModel ratStr0 sinkFail 0 [] msgAdd).2
      = (callModel ratStr0 sinkOk 0 [] msgAdd).2 ∧
    ∃ reply, (callModel ratStr0 sinkFail 0 [] msgAdd).2 = some reply := by
  have h := sink_failure_never_affects_reply ratStr0 sinkFail sinkOk 0 [] msgAdd
  refine ⟨h.1, h.2.2 ?_⟩
  intro cs hcs c hc
  have hcs' : cs = [⟨"calculator", "add", 2, 3⟩] := by
    have := hcs
    simp only [msgAdd, Option.some.injEq] at this
    exact this.symm
  subst hcs'
  simp only [List.mem_singleton] at hc
  subst hc
  exact ⟨2 + 3, rfl⟩

/-- C3, counterexample: on a concrete execution whose first model response
requests the failing tool call `divide 1 0`, `callModel` does not catch the
tool error and does not return any assistant reply: the conversation crashes
(outcome `crashed`), the remaining user input is never processed, no span is
logged for the turn and the trace is never completed — contradicting the
claim that the error is caught, surfaced inline, and the loop proceeds. -/
theorem tool_error_crashes_conversation :
    conversation ratStr0 oracleDiv0 ["go", "more"]
      = ([.flowStart 0], [systemMessage, ⟨"user", "go"⟩], .crashed) := by decide

/-- C3 (amended): when a model response requests a tool call whose execution
fails, `callModel` does not catch the tool error: the error propagates
uncaught, the conversation loop crashes without producing an assistant reply
for that turn, the remaining inputs are not processed, and the trace is never
closed with a terminal status (the inline `[name] result` tag is produced
only for successful tool calls). -/
theorem tool_error_propagates_uncaught (ratStr : Rat → String)
    (oracle : Nat → ModelMessage) (traceId turn : Nat) (messages : List Message)
    (s : String) (rest : List String) (content? : Option String)
    (c : ToolCall) (cs : List ToolCall) (e : String)
    (hs : s ≠ "exit")
    (horacle : oracle turn = ⟨content?, some (c :: cs)⟩)
    (hc : calculator c.operation c.num1 c.num2 = .error e) :
    convLoop ratStr oracle traceId turn messages (s :: rest)
      = ([], messages ++ [{ role := "user", content := s }], .crashed) ∧
    (oracle 0 = ⟨content?, some (c :: cs)⟩ →
      ∀ rest', conversation ratStr oracle (s :: rest')
        = ([.flowStart 0], [systemMessage, { role := "user", content := s }],
           .crashed)) := by
  have hloop : ∀ (tid t : Nat) (msgs : List Message) (rst : List String),
      oracle t = ⟨content?, some (c :: cs)⟩ →
      convLoop ratStr oracle tid t msgs (s :: rst)
        = ([], msgs ++ [{ role := "user", content := s }], .crashed) := by
    intro tid t msgs rst ho
    simp [convLoop, if_neg hs, callModelEvents, callModel, ho, runToolCalls, hc]
  refine ⟨hloop traceId turn messages rest horacle, fun h0 rest' => ?_⟩
  simp [conversation, hloop 0 0 [systemMessage] rest' h0]

/-- C3, witness for `tool_error_propagates_uncaught` at a concrete input. -/
theorem tool_error_propagates_uncaught_witness :
    convLoop ratStr0 oracleDiv0 0 0 [systemMessage] ["dividepls", "next"]
      = ([], [systemMessage, ⟨"user", "dividepls"⟩], .crashed) ∧
    conversation ratStr0 oracleDiv0 ["dividepls", "next"]
      = ([.flowStart 0], [systemMessage, ⟨"user", "dividepls"⟩], .crashed) := by
  have h := tool_error_propagates_uncaught ratStr0 oracleDiv0 0 0 [systemMessage]
    "dividepls" ["next"] none ⟨"calculator", "divide", 1, 0⟩ []
    "Cannot divide by zero" (by decide) rfl rfl
  exact ⟨h.1, h.2 rfl ["next"]⟩

/-- C9: when a single model response carries several tool calls, the
manual-logging agent (`part_002`) executes and logs every one of them but
returns an assistant reply holding only the last call's result (each earlier
`llmResponse` is overwritten), while the decorated variants (`part_000`,
node/deno instrumented agents) return after executing only the first tool
call, discarding the rest. -/
theorem multi_tool_call_divergence (ratStr : Rat → String)
    (sink : Event → SinkResult) (traceId : Nat) (messages : List Message)
    (content? : Option String) (cs : List ToolCall) (c : ToolCall) (r : Rat)
    (hall : ∀ c' ∈ cs, ∃ r', calculator c'.operation c'.num1 c'.num2 = .ok r')
    (hlast : calculator c.operation c.num1 c.num2 = .ok r) :
    (callModel ratStr sink traceId messages ⟨content?, some (cs ++ [c])⟩).2
      = some ("[" ++ c.name ++ "] " ++ ratStr r) ∧
    ((callModel ratStr sink traceId messages ⟨content?, some (cs ++ [c])⟩).1.map
        Prod.fst).countP (isToolLog traceId) = cs.length + 1 ∧
    (∀ (d : ToolCall) (ds : List ToolCall) (rd : Rat),
      calculator d.operation d.num1 d.num2 = .ok rd →
      callModelDecorated ratStr ⟨content?, some (d :: ds)⟩
        = some ("[TOOL CALL] " ++ ratStr rd)) := by
  obtain ⟨hreply, hlen⟩ :=
    runToolCalls_last_reply ratStr sink traceId c r hlast cs hall ""
  rcases h1 : runToolCalls ratStr sink traceId (cs ++ [c]) "" with ⟨evs, res⟩
  rw [h1] at hreply hlen
  refine ⟨?_, ?_, ?_⟩
  · simp [callModel, h1, hreply]
  · have htool : ∀ p ∈ evs, isToolLog traceId p.1 = true := fun p hp =>
      (runToolCalls_events_toolLog ratStr sink traceId (cs ++ [c]) "" p
        (by rw [h1]; exact hp)).1
    have hcount : (evs.map Prod.fst).countP (isToolLog traceId) = evs.length := by
      rw [show evs.length = (evs.map Prod.fst).length from
        (List.length_map evs Prod.fst).symm]
      rw [List.countP_eq_length]
      intro e he
      obtain ⟨p, hp, hpe⟩ := List.mem_map.mp he
      rw [← hpe]
      exact htool p hp
    simp [callModel, h1, hreply, List.countP_append, hcount, hlen, isToolLog]
  · intro d ds rd hd
    simp [callModelDecorated, hd]

/-- C9, witness for `multi_tool_call_divergence` on the concrete pair of tool
calls `add 1 2` then `multiply 2 3`. -/
theorem multi_tool_call_divergence_witness :
    (callModel ratStr0 sinkOk 0 []
        ⟨none, some [⟨"calculator", "add", 1, 2⟩, ⟨"calculator", "multiply", 2, 3⟩]⟩).2
      = some ("[calculator] " ++ ratStr0 6) ∧
    callModelDecorated ratStr0
        ⟨none, some [⟨"calculator", "add", 1, 2⟩, ⟨"calculator", "multiply", 2, 3⟩]⟩
      = some ("[TOOL CALL] " ++ ratStr0 3) := by
  have h := multi_tool_call_divergence ratStr0 sinkOk 0 [] none
    [⟨"calculator", "add", 1, 2⟩] ⟨"calculator", "multiply", 2, 3⟩ 6
    (by
      intro c' hc'
      simp only [List.mem_singleton] at hc'
      subst hc'
      exact ⟨3, by simp [calculator]; norm_num⟩)
    (by simp [calculator]; norm_num)
  exact ⟨by simpa using h.1,
    h.2.2 ⟨"calculator", "add", 1, 2⟩ [⟨"calculator", "multiply", 2, 3⟩] 3
      (by simp [calculator]; norm_num)⟩

/-- C10: the conversation loop's exit sentinel is matched by strict string
equality: exactly the line `"exit"` terminates the loop immediately (closing
the trace, without calling the model), while any other line — e.g. `"EXIT"`
or `"exit "` — is appended to the history as an ordinary user message, sent
to the model, and answered (the assistant reply is logged and appended). -/
theorem exit_sentinel_strict_equality (ratStr : Rat → String)
    (oracle : Nat → ModelMessage) (traceId turn : Nat) (messages : List Message)
    (rest : List String) :
    convLoop ratStr oracle traceId turn messages ("exit" :: rest)
      = ([], messages, .completed) ∧
    (∀ rest', conversation ratStr oracle ("exit" :: rest')
      = ([.flowStart 0, .flowComplete 0], [systemMessage], .completed)) ∧
    (∀ s, s ≠ "exit" → ∀ reply, oracle turn = ⟨some reply, none⟩ →
      convLoop ratStr oracle traceId turn messages (s :: rest)
        = (Event.promptLog traceId
              (messages ++ [{ role := "user", content := s },
                { role := "assistant", content := reply }])
            :: (convLoop ratStr oracle traceId (turn + 1)
                (messages ++ [{ role := "user", content := s },
                  { role := "assistant", content := reply }]) rest).1,
          (convLoop ratStr oracle traceId (turn + 1)
              (messages ++ [{ role := "user", content := s },
                { role := "assistant", content := reply }]) rest).2)) := by
  refine ⟨by simp [convLoop], fun rest' => by simp [conversation, convLoop],
    fun s hs reply horacle => ?_⟩
  rcases hrec : convLoop ratStr oracle traceId (turn + 1)
    (messages ++ [{ role := "user", content := s },
      { role := "assistant", content := reply }]) rest with ⟨evs', msgs', out⟩
  simp [convLoop, if_neg hs, horacle, callModelEvents, callModel, hrec]

/-- C10, witness for `exit_sentinel_strict_equality`: `"exit"` stops the
loop; `"EXIT"` and `"exit "` are ordinary user turns. -/
theorem exit_sentinel_strict_equality_witness :
    convLoop ratStr0 oracleHi 0 0 [systemMessage] ["exit"]
      = ([], [systemMessage], .completed) ∧
    convLoop ratStr0 oracleHi 0 0 [systemMessage] ["EXIT", "exit"]
      = (Event.promptLog 0
            ([systemMessage] ++ [⟨"user", "EXIT"⟩, ⟨"assistant", "hi"⟩])
          :: (convLoop ratStr0 oracleHi 0 1
              ([systemMessage] ++ [⟨"user", "EXIT"⟩, ⟨"assistant", "hi"⟩])
              ["exit"]).1,
         (convLoop ratStr0 oracleHi 0 1
            ([systemMessage] ++ [⟨"user", "EXIT"⟩, ⟨"assistant", "hi"⟩])
            ["exit"]).2) ∧
    convLoop ratStr0 oracleHi 0 0 [systemMessage] ["exit ", "exit"]
      = (Event.promptLog 0
            ([systemMessage] ++ [⟨"user", "exit "⟩, ⟨"assistant", "hi"⟩])
          :: (convLoop ratStr0 oracleHi 0 1
              ([systemMessage] ++ [⟨"user", "exit "⟩, ⟨"assistant", "hi"⟩])
              ["exit"]).1,
         (convLoop ratStr0 oracleHi 0 1
            ([systemMessage] ++ [⟨"user", "exit "⟩, ⟨"assistant", "hi"⟩])
            ["exit"]).2) :=
  ⟨(exit_sentinel_strict_equality ratStr0 oracleHi 0 0 [systemMessage] []).1,
   (exit_sentinel_strict_equality ratStr0 oracleHi 0 0 [systemMessage]
      ["exit"]).2.2 "EXIT" (by decide) "hi" rfl,
   (exit_sentinel_strict_equality ratStr0 oracleHi 0 0 [systemMessage]
      ["exit"]).2.2 "exit " (by decide) "hi" rfl⟩

/-- C4, counterexample: for the template message `"Hello {{name}}"` and the
mapping `{age: "36"}` (no `name` key), `populate_template` does not fail with
a `MissingVariable` error — it is a total function that returns the message
unchanged, with the `{{name}}` marker still present in the produced text. -/
theorem populate_template_missing_key_no_error :
    populate_template [c4msg] [("age".data, "36".data)] = [c4msg] ∧
    placeholder "name".data <:+: c4msg.content :=
  ⟨by decide, by decide⟩

/-- C4 (amended): `populate_template` never fails with `MissingVariable` — it
performs no membership check and always returns a result; a placeholder whose
key is absent from the mapping is not detected and its marker is silently
left verbatim whenever the mapped substitutions do not rewrite the text
around it.  Proven here: a message in which no mapped key's placeholder
occurs is returned completely unchanged (first conjunct, with hypothesis),
and in ordinary mixed substitution the unmapped marker survives while the
mapped keys are substituted: `"Hello {{name}}, you are {{age}}"` with the
mapping `{age: "36"}` produces exactly `"Hello {{name}}, you are 36"`, the
`{{name}}` marker still an infix of the produced content. -/
theorem populate_template_leaves_marker (template : List TemplateMessage)
    (inputs : List (List Char × List Char))
    (h : ∀ m ∈ template, ∀ kv ∈ inputs, ¬ placeholder kv.1 <:+: m.content) :
    populate_template template inputs = template ∧
    populate_template
      [⟨"user".data, "Hello \x7b\x7bname\x7d\x7d, you are \x7b\x7bage\x7d\x7d".data⟩]
      [("age".data, "36".data)]
      = [⟨"user".data, "Hello \x7b\x7bname\x7d\x7d, you are 36".data⟩] ∧
    placeholder "name".data <:+:
      substInputs [("age".data, "36".data)]
        "Hello \x7b\x7bname\x7d\x7d, you are \x7b\x7bage\x7d\x7d".data := by
  refine ⟨?_, by decide, by decide⟩
  unfold populate_template
  conv_rhs => rw [← List.map_id template]
  apply List.map_congr_left
  intro m hm
  rw [substInputs_no_occurrence inputs m.content (h m hm)]
  rfl

/-- C4, witness for `populate_template_leaves_marker` at a concrete input. -/
theorem populate_template_leaves_marker_witness :
    populate_template [c4msg] [("city".data, "Paris".data)] = [c4msg] :=
  (populate_template_leaves_marker _ _ (by decide)).1

/-- C5, counterexample: substitution is sequential in the mapping's iteration
order, so a substituted value containing another key's placeholder marker IS
re-substituted when that key comes later: on the template text `"{{a}}"`,
the mapping `[a ↦ "{{b}}", b ↦ "X"]` produces `"X"` while the same mapping
iterated in the order `[b ↦ "X", a ↦ "{{b}}"]` produces `"{{b}}"` — the
result depends on the iteration order. -/
theorem substitution_order_dependent :
    substInputs [("a".data, "\x7b\x7bb\x7d\x7d".data), ("b".data, "X".data)]
      "\x7b\x7ba\x7d\x7d".data = "X".data ∧
    substInputs [("b".data, "X".data), ("a".data, "\x7b\x7bb\x7d\x7d".data)]
      "\x7b\x7ba\x7d\x7d".data = "\x7b\x7bb\x7d\x7d".data :=
  ⟨by decide, by decide⟩

/-- C5 (amended): `populate_template` replaces every occurrence of each
placeholder by literal text, processing the mapping's keys sequentially in
iteration order (so a substituted value containing a later key's marker is
re-substituted, and in general the result depends on that order); for the
template `"Hello {{name}}, you are {{age}}"` with mapping
`{name: "Ada", age: "36"}` the result content is exactly
`"Hello Ada, you are 36"` under either iteration order, and a doubled
`"{{k}} and {{k}}"` has both occurrences replaced. -/
theorem populate_template_hello_ada :
    populate_template
      [⟨"user".data, "Hello \x7b\x7bname\x7d\x7d, you are \x7b\x7bage\x7d\x7d".data⟩]
      [("name".data, "Ada".data), ("age".data, "36".data)]
      = [⟨"user".data, "Hello Ada, you are 36".data⟩] ∧
    populate_template
      [⟨"user".data, "Hello \x7b\x7bname\x7d\x7d, you are \x7b\x7bage\x7d\x7d".data⟩]
      [("age".data, "36".data), ("name".data, "Ada".data)]
      = [⟨"user".data, "Hello Ada, you are 36".data⟩] ∧
    replaceAll (placeholder "k".data) "v".data
      "\x7b\x7bk\x7d\x7d and \x7b\x7bk\x7d\x7d".data = "v and v".data :=
  ⟨by decide, by decide, by decide⟩

/-- C6, counterexample: the claim's stated normalization (split on "---",
take the first segment, trim, strip a leading "```\n" fence — with no further
trimming) does not characterize `exactMatch`: on `generated = "```\n 42"`,
`target = "42"`, `exactMatch` is `true` (the code trims again after stripping
the fence) but the target differs from the claim's normalization `" 42"`. -/
theorem exactMatch_normalization_counterexample :
    exactMatch "```\n 42" "42" = true ∧
    claimNormalization "```\n 42".data ≠ "42".data :=
  ⟨by decide, by decide⟩

/-- C6 (amended): `exactMatch generated target` is true iff `target` equals
the normalization of `generated` obtained by splitting on "---", taking the
first segment, trimming surrounding whitespace, and — if a leading "```\n"
code-fence marker is present — stripping it and trimming the remainder
again; concretely `exactMatch "42\n---\nexplanation" "42" = true`,
`exactMatch "```\n42" "42" = true`, and `exactMatch "43" "42" = false`. -/
theorem exactMatch_characterization :
    (∀ generated target : String,
      exactMatch generated target = true ↔ target = extractAnswerS generated) ∧
    exactMatch "42\n---\nexplanation" "42" = true ∧
    exactMatch "```\n42" "42" = true ∧
    exactMatch "43" "42" = false := by
  refine ⟨fun g t => ?_, by decide, by decide, by decide⟩
  simp [exactMatch]

/-- C7: the edit distance underlying the levenshtein evaluator is symmetric,
zero exactly on equal strings (in particular zero on every pair `(s, s)`),
and `distance("kitten", "sitting") = 3`. -/
theorem levenshtein_evaluator_properties :
    (∀ a b : List Char, lev a b = lev b a) ∧
    (∀ a b : List Char, lev a b = 0 ↔ a = b) ∧
    (∀ s : String, levString s s = 0) ∧
    levString "kitten" "sitting" = 3 := by
  refine ⟨lev_symm, lev_eq_zero_iff, fun s => ?_, by decide⟩
  exact (lev_eq_zero_iff s.data s.data).mpr rfl

/-- C8: the calculator returns `num1 + num2`, `num1 - num2`, `num1 * num2`
or `num1 / num2` for the four operations, and throws exactly when the
operation is "divide" with `num2 = 0` (message "Cannot divide by zero") or
the operation is outside the four (message "Invalid operation"); a thrown
tool error is captured by the Correlator's tool wrapper as a span with
`status = errored` and the error description as output (a total capture —
the error does not propagate).  Numbers are modelled as rationals. -/
theorem calculator_behavior (op : String) (n1 n2 : Rat) (ratStr : Rat → String) :
    calculator "add" n1 n2 = .ok (n1 + n2) ∧
    calculator "subtract" n1 n2 = .ok (n1 - n2) ∧
    calculator "multiply" n1 n2 = .ok (n1 * n2) ∧
    (n2 ≠ 0 → calculator "divide" n1 n2 = .ok (n1 / n2)) ∧
    calculator "divide" n1 0 = .error "Cannot divide by zero" ∧
    (op ∉ (["add", "subtract", "multiply", "divide"] : List String) →
      calculator op n1 n2 = .error "Invalid operation") ∧
    ((∃ e, calculator op n1 n2 = .error e) ↔
      (op = "divide" ∧ n2 = 0) ∨
        op ∉ (["add", "subtract", "multiply", "divide"] : List String)) ∧
    (∀ e, calculator op n1 n2 = .error e →
      runToolSpan ratStr op n1 n2 = ⟨.errored, e⟩) := by
  have hadd : calculator "add" n1 n2 = .ok (n1 + n2) := rfl
  have hsub : calculator "subtract" n1 n2 = .ok (n1 - n2) := rfl
  have hmul : calculator "multiply" n1 n2 = .ok (n1 * n2) := rfl
  have hdivz : calculator "divide" n1 0 = .error "Cannot divide by zero" := by
    show (if (0 : Rat) = 0 then (Except.error "Cannot divide by zero" : Except String Rat)
      else .ok (n1 / 0)) = .error "Cannot divide by zero"
    rw [if_pos rfl]
  have hdiv : n2 ≠ 0 → calculator "divide" n1 n2 = .ok (n1 / n2) := by
    intro h
    show (if n2 = 0 then (Except.error "Cannot divide by zero" : Except String Rat)
      else .ok (n1 / n2)) = .ok (n1 / n2)
    rw [if_neg h]
  have hinv : op ∉ (["add", "subtract", "multiply", "divide"] : List String) →
      calculator op n1 n2 = .error "Invalid operation" := by
    intro hop
    simp only [List.mem_cons, List.not_mem_nil, or_false, not_or] at hop
    obtain ⟨h1, h2, h3, h4⟩ := hop
    unfold calculator
    rw [if_neg h1, if_neg h2, if_neg h3, if_neg h4]
  have hspan : ∀ e, calculator op n1 n2 = .error e →
      runToolSpan ratStr op n1 n2 = ⟨.errored, e⟩ := by
    intro e he
    unfold runToolSpan
    rw [he]
  refine ⟨hadd, hsub, hmul, hdiv, hdivz, hinv, ?_, hspan⟩
  constructor
  · rintro ⟨e, he⟩
    by_cases h1 : op = "add"
    · subst h1; rw [hadd] at he; exact absurd he (by simp)
    by_cases h2 : op = "subtract"
    · subst h2; rw [hsub] at he; exact absurd he (by simp)
    by_cases h3 : op = "multiply"
    · subst h3; rw [hmul] at he; exact absurd he (by simp)
    by_cases h4 : op = "divide"
    · subst h4
      by_cases h5 : n2 = 0
      · exact Or.inl ⟨rfl, h5⟩
      · rw [hdiv h5] at he; exact absurd he (by simp)
    · exact Or.inr (by simp [h1, h2, h3, h4])
  · rintro (⟨hop, hz⟩ | hop)
    · subst hop; subst hz; exact ⟨_, hdivz⟩
    · exact ⟨_, hinv hop⟩

/-- C8, witness for `calculator_behavior` at concrete inputs. -/
theorem calculator_behavior_witness :
    calculator "add" 2 3 = .ok 5 ∧
    calculator "divide" 1 2 = .ok (1 / 2 : Rat) ∧
    calculator "modulo" 1 2 = .error "Invalid operation" ∧
    runToolSpan (fun _ => "") "modulo" 1 2 = ⟨.errored, "Invalid operation"⟩ := by
  refine ⟨?_, ?_, ?_, ?_⟩
  · rw [(calculator_behavior "add" 2 3 fun _ => "").1,
      show (2 + 3 : Rat) = 5 by norm_num]
  · exact (calculator_behavior "divide" 1 2 fun _ => "").2.2.2.1 (by norm_num)
  · exact (calculator_behavior "modulo" 1 2 fun _ => "").2.2.2.2.2.1 (by decide)
  · exact (calculator_behavior "modulo" 1 2 fun _ => "").2.2.2.2.2.2.2 _
      ((calculator_behavior "modulo" 1 2 fun _ => "").2.2.2.2.2.1 (by decide))

end Cookbook
